import Mathlib

/-!
Verification of the conversation-bot core (bot.py): the per-user
History Store (append / trim / rollback / reset over a keyed map of
turn buffers) and the Dispatcher (event routing, mention stripping,
command handling, response fragmentation), embedded shallowly.
Strings are modelled as `List Char`; the process-wide
`conversation_history` defaultdict is a total function from user id
to buffer (missing key = empty list).
-/

namespace ConvBot

/-- A message role, as used in the `"role"` field of history entries. -/
inductive Role
  | system
  | user
  | assistant
  deriving DecidableEq, Repr

/-- One history entry `{"role": ..., "content": ...}` (a Turn). -/
structure Turn where
  role : Role
  content : List Char
  deriving DecidableEq, Repr

/-- The bound `MAX_HISTORY_LENGTH = 20` (bot.py line 51). -/
def MAX_HISTORY_LENGTH : Nat := 20

/-- The system prompt constant (bot.py lines 30-49), content inert for the claims. -/
def SYSTEM_PROMPT : List Char :=
  ("You are a friendly and helpful Discord bot assistant. You engage in natural conversations \n" ++
   "and help users with various tasks.").toList

/-- Build the user turn appended at bot.py lines 78-81. -/
def userTurn (msg : List Char) : Turn := ⟨Role.user, msg⟩

/-- Build the assistant turn appended at bot.py lines 104-107. -/
def assistantTurn (t : List Char) : Turn := ⟨Role.assistant, t⟩

/-- The process-wide `conversation_history` map: user id → buffer; a
defaultdict(list), so every key reads as a list (missing = `[]`). -/
def State : Type := Nat → List Turn

/-- The state at process start: every buffer empty. -/
def initialState : State := fun _ => []

/-- Append: `conversation_history[user_id].append(turn)` (bot.py lines 78-81 / 104-107). -/
def historyAppend (st : State) (u : Nat) (t : Turn) : State :=
  fun v => if v = u then st u ++ [t] else st v

/-- Buffer-level trim: `history[-MAX_HISTORY_LENGTH:]` when too long (bot.py lines 84-85). -/
def trimBuffer (b : List Turn) : List Turn :=
  if MAX_HISTORY_LENGTH < b.length then b.drop (b.length - MAX_HISTORY_LENGTH) else b

/-- State-level trim of one user's buffer (bot.py lines 84-85). -/
def historyTrim (st : State) (u : Nat) : State :=
  fun v => if v = u then trimBuffer (st u) else st v

/-- One user-turn append immediately followed by the trim, at buffer level:
the effect of bot.py lines 78-85 on the acting user's own buffer. -/
def appendTrim (b : List Turn) (t : Turn) : List Turn :=
  trimBuffer (b ++ [t])

/-- Render: `messages = [system turn] ++ history` (bot.py lines 88-89),
generalized over the system prompt text. Pure: builds a fresh list. -/
def render (b : List Turn) (sysPrompt : List Char) : List Turn :=
  Turn.mk Role.system sysPrompt :: b

/-- Rollback, `list.pop()` as a buffer operation (bot.py line 113): removes the last
entry; on an empty list Python raises IndexError, modelled as `none`. -/
def rollbackLast : List Turn → Option (List Turn)
  | [] => none
  | t :: ts => some (t :: ts).dropLast

/-- State-level pop of one user's buffer (bot.py line 113). At its only call
site the buffer is non-empty (a user turn was appended at line 78), where
`pop` agrees with `dropLast`. -/
def historyPop (st : State) (u : Nat) : State :=
  fun v => if v = u then (st u).dropLast else st v

/-- The apology text of bot.py line 114, prefix plus the error detail. -/
def apology (e : List Char) : List Char :=
  ("Sorry, I encountered an error: ").toList ++ e

/-- The function `get_ai_response` (bot.py lines 66-114). The OpenAI call is the
parameter `completion`; any exception it raises is its `Except.error`. -/
def get_ai_response (st : State) (u : Nat) (userMsg : List Char)
    (completion : List Turn → Except (List Char) (List Char)) : State × List Char :=
  let st1 := historyAppend st u (userTurn userMsg)
  let st2 := historyTrim st1 u
  let messages := render (st2 u) SYSTEM_PROMPT
  match completion messages with
  | Except.ok ai => (historyAppend st2 u (assistantTurn ai), ai)
  | Except.error e => (historyPop st2 u, apology e)

/-- The function `reset_conversation` (bot.py lines 117-119): buffer set to `[]`. -/
def reset_conversation (st : State) (u : Nat) : State :=
  fun v => if v = u then [] else st v

/-- Fold of user-turn appends (each followed by the trim) over a buffer. -/
def appendAll (b : List Turn) (ms : List (List Char)) : List Turn :=
  ms.foldl (fun acc m => appendTrim acc (userTurn m)) b

/-- Net buffer effect of one full successful exchange for the acting user
(bot.py lines 78-107): user append + trim, then assistant append. -/
def successExchange (b : List Turn) (msg ai : List Char) : List Turn :=
  appendTrim b (userTurn msg) ++ [assistantTurn ai]

/-- Net buffer effect of one failed exchange for the acting user
(bot.py lines 78-85 and 111-113): user append + trim, then rollback pop. -/
def failedExchange (b : List Turn) (msg : List Char) : List Turn :=
  (appendTrim b (userTurn msg)).dropLast

/-- Buffers one user's history can reach under the program's own operation
sequences: successful exchanges, failed exchanges, and `!reset`. -/
inductive Reachable : List Turn → Prop
  | empty : Reachable []
  | success (b : List Turn) (msg ai : List Char) :
      Reachable b → Reachable (successExchange b msg ai)
  | failure (b : List Turn) (msg : List Char) :
      Reachable b → Reachable (failedExchange b msg)
  | reset (b : List Turn) : Reachable b → Reachable []

/-- Buffer after `n` successive successful exchanges from an empty buffer. -/
def iterSuccess : Nat → List Turn
  | 0 => []
  | n + 1 => successExchange (iterSuccess n) (['u']) (['a'])

/-! ### Dispatcher (on_message, bot.py lines 134-179, and commands 182-218) -/

/-- Python's default `str.strip()` whitespace set (ASCII part). -/
def isPySpace (c : Char) : Bool :=
  c = ' ' || c = '\t' || c = '\n' || c = '\r' || c = '\x0B' || c = '\x0C'

/-- Python `str.strip()`: drop leading and trailing whitespace. -/
def pyStrip (s : List Char) : List Char :=
  ((s.dropWhile isPySpace).reverse.dropWhile isPySpace).reverse

/-- Fuel-driven left-to-right non-overlapping replacement; with fuel ≥ the
length of the subject it computes Python `str.replace` for a non-empty
pattern (all call sites here pass the non-empty mention tokens). -/
def pyReplaceFuel (pat rep : List Char) : Nat → List Char → List Char
  | _, [] => []
  | 0, s => s
  | fuel + 1, c :: rest =>
    if pat ≠ [] ∧ (c :: rest).take pat.length = pat then
      rep ++ pyReplaceFuel pat rep fuel ((c :: rest).drop pat.length)
    else
      c :: pyReplaceFuel pat rep fuel rest

/-- Python `s.replace(pat, rep)` for non-empty `pat`. -/
def pyReplace (s pat rep : List Char) : List Char :=
  pyReplaceFuel pat rep s.length s

/-- The plain mention token `f"<@{bot.user.id}>"` (bot.py line 160). -/
def mentionPlain (botId : Nat) : List Char :=
  ("<@" ++ Nat.repr botId ++ ">").toList

/-- The nickname mention token `f"<@!{bot.user.id}>"` (bot.py line 161). -/
def mentionNick (botId : Nat) : List Char :=
  ("<@!" ++ Nat.repr botId ++ ">").toList

/-- The check `message.content.startswith(...)` with the `"!"` configured
at bot.py line 63. -/
def startsWithBang : List Char → Bool
  | '!' :: _ => true
  | _ => false

/-- An inbound gateway event: just the fields on_message consults.
`authorIsBot` is `message.author == bot.user`; `mentionedFlag` is the
platform-computed `bot.user.mentioned_in(message)`. -/
structure Msg where
  authorIsBot : Bool
  isDM : Bool
  mentionedFlag : Bool
  authorId : Nat
  content : List Char

/-- The mention-stripping of bot.py lines 160-161, exactly as written: the
line-160 result (removing the plain token) is bound and then discarded,
because line 161 starts again from the original `message.content`; the net
effect removes only the nickname token. -/
def strippedMention (botId : Nat) (content : List Char) : List Char :=
  let _line160 := pyStrip (pyReplace content (mentionPlain botId) [])
  pyStrip (pyReplace content (mentionNick botId) [])

/-- The `should_respond` / `user_message` pair computed at bot.py lines 148-161. -/
def shouldRespondAndMessage (botId : Nat) (m : Msg) : Bool × List Char :=
  if m.isDM then (true, m.content)
  else if m.mentionedFlag then (true, strippedMention botId m.content)
  else (false, m.content)

/-- How the Dispatcher classifies one event. -/
inductive Action
  | ignore
  | command
  | respond (userMessage : List Char)
  deriving DecidableEq, Repr

/-- The routing decision of on_message (bot.py lines 137-163), in source
order: self-authored → ignore; `!`-prefixed → command path and stop;
otherwise respond iff `should_respond` and the derived message is non-empty. -/
def route (botId : Nat) (m : Msg) : Action :=
  if m.authorIsBot then Action.ignore
  else if startsWithBang m.content then Action.command
  else
    let p := shouldRespondAndMessage botId m
    if p.1 = true ∧ p.2 ≠ [] then Action.respond p.2 else Action.ignore

/-- The `!reset` confirmation text (bot.py line 186). -/
def resetMessage : List Char :=
  ("🔄 Conversation reset! I have forgotten our previous chat. We can start fresh!").toList

/-- Stand-in for the `!help` embed (bot.py lines 192-218); its rich content
is inert for every claim, only the fact that exactly one reply is sent matters. -/
def helpMessage : List Char :=
  ("🤖 Conversation Bot Help").toList

/-- The command word discord.py parses after the `!`: the run of
non-whitespace characters following the one-character prefix. -/
def commandName (content : List Char) : List Char :=
  (content.drop 1).takeWhile (fun c => !(isPySpace c))

/-- The call `bot.process_commands(message)` (bot.py line 142) over the two registered
commands: `!reset` clears the caller's history and confirms (lines 182-186);
`!help` replies with the help embed (lines 189-218); any other `!`-prefixed
text raises CommandNotFound, swallowed by default — no output, no state
change. Non-`!` text triggers nothing. Returns (new state, reply texts). -/
def process_commands (st : State) (authorId : Nat) (content : List Char) :
    State × List (List Char) :=
  if startsWithBang content then
    if commandName content = ("reset").toList then
      (reset_conversation st authorId, [resetMessage])
    else if commandName content = ("help").toList then
      (st, [helpMessage])
    else (st, [])
  else (st, [])

/-- Whether an outgoing fragment is sent with `message.reply` (threaded
reply) or `message.channel.send` (plain follow-up). -/
inductive SendMode
  | reply
  | followup
  deriving DecidableEq, Repr

/-- Fuel-driven fixed-size slicing; with fuel ≥ the length of the subject it
computes `[response[i:i+2000] for i in range(0, len(response), 2000)]`
(bot.py line 174). -/
def chunksFuel : Nat → List Char → List (List Char)
  | _, [] => []
  | 0, _ :: _ => []
  | fuel + 1, c :: rest =>
    ((c :: rest).take 2000) :: chunksFuel fuel ((c :: rest).drop 2000)

/-- The chunk list of bot.py line 174. -/
def chunks (s : List Char) : List (List Char) :=
  chunksFuel s.length s

/-- The emission policy of bot.py lines 170-179: one threaded reply when the
response fits in 2000 characters, else the chunk list with the first chunk
as a threaded reply and the rest as plain follow-ups, in order. -/
def emitFragments (response : List Char) : List (SendMode × List Char) :=
  if response.length ≤ 2000 then [(SendMode.reply, response)]
  else
    match chunks response with
    | [] => []
    | c :: cs => (SendMode.reply, c) :: cs.map (fun ck => (SendMode.followup, ck))

/-- The whole of on_message (bot.py lines 134-179) as a state transformer
producing the ordered outgoing fragments: self-check, process_commands,
command-prefix early return, routing, AI exchange, fragmentation. -/
def on_message (botId : Nat) (m : Msg) (st : State)
    (completion : List Turn → Except (List Char) (List Char)) :
    State × List (SendMode × List Char) :=
  if m.authorIsBot then (st, [])
  else
    let pc := process_commands st m.authorId m.content
    if startsWithBang m.content then (pc.1, pc.2.map (fun t => (SendMode.reply, t)))
    else
      let p := shouldRespondAndMessage botId m
      if p.1 = true ∧ p.2 ≠ [] then
        let r := get_ai_response pc.1 m.authorId p.2 completion
        (r.1, emitFragments r.2)
      else (pc.1, [])

/-! ### Concrete inputs used to instantiate the claims -/

/-- A state whose buffers are all full: 20 user turns. -/
def st20 : State := fun _ => List.replicate 20 (userTurn (['x']))

/-- A completion client that always raises. -/
def failComp : List Turn → Except (List Char) (List Char) :=
  fun _ => Except.error (['e'])

/-- A completion client that always succeeds. -/
def okComp : List Turn → Except (List Char) (List Char) :=
  fun _ => Except.ok (['o', 'k'])

/-- Shared-channel event mentioning the bot with the plain encoding. -/
def eventPlainMention : Msg :=
  { authorIsBot := false, isDM := false, mentionedFlag := true, authorId := 42,
    content := ("<@123> explain recursion").toList }

/-- Shared-channel event mentioning the bot with the nickname encoding. -/
def eventNickMention : Msg :=
  { authorIsBot := false, isDM := false, mentionedFlag := true, authorId := 42,
    content := ("<@!123> explain recursion").toList }

/-- A non-bot event carrying an unrecognized `!`-prefixed command. -/
def eventUnknownCommand : Msg :=
  { authorIsBot := false, isDM := true, mentionedFlag := false, authorId := 5,
    content := ("!frobnicate now").toList }

/-- A 4500-character response text. -/
def s4500 : List Char := List.replicate 4500 'a'

/-! ### General lemmas about the embedded operations -/

theorem take_append_take (z w : List α) (n : Nat) :
    (z ++ w.take n).take n = (z ++ w).take n := by
  rw [List.take_append_eq_append_take, List.take_append_eq_append_take, List.take_take,
    Nat.min_eq_left (Nat.sub_le n z.length)]

theorem rtake_append_rtake (x y : List α) (n : Nat) :
    (x.rtake n ++ y).rtake n = (x ++ y).rtake n := by
  simp only [List.rtake_eq_reverse_take_reverse, List.reverse_append, List.reverse_reverse]
  rw [take_append_take]

theorem rtake_append_of_le {n : Nat} (x y : List α) (h : n ≤ y.length) :
    (x ++ y).rtake n = y.rtake n := by
  simp only [List.rtake_eq_reverse_take_reverse, List.reverse_append]
  rw [List.take_append_eq_append_take]
  have hz : n - y.reverse.length = 0 := by simp [h]
  rw [hz, List.take_zero, List.append_nil]

theorem rtake_of_length_le {n : Nat} (l : List α) (h : l.length ≤ n) :
    l.rtake n = l := by
  have hz : l.length - n = 0 := Nat.sub_eq_zero_of_le h
  simp [List.rtake, hz]

theorem length_rtake_of_le {n : Nat} (l : List α) (h : n ≤ l.length) :
    (l.rtake n).length = n := by
  simp [List.rtake]
  omega

/-- The trim of bot.py lines 84-85 keeps exactly the last `H` entries. -/
theorem trimBuffer_eq_rtake (b : List Turn) :
    trimBuffer b = b.rtake MAX_HISTORY_LENGTH := by
  by_cases h : MAX_HISTORY_LENGTH < b.length
  · simp [trimBuffer, h, List.rtake]
  · simp [trimBuffer, h, rtake_of_length_le b (Nat.le_of_not_lt h)]

theorem appendTrim_eq_rtake (b : List Turn) (t : Turn) :
    appendTrim b t = (b ++ [t]).rtake MAX_HISTORY_LENGTH := by
  rw [appendTrim, trimBuffer_eq_rtake]

/-- After the user-turn append + trim the buffer never exceeds `H` entries. -/
theorem appendTrim_length_le (b : List Turn) (t : Turn) :
    (appendTrim b t).length ≤ MAX_HISTORY_LENGTH := by
  simp only [appendTrim, trimBuffer]
  split <;> simp_all
  omega

/-- When the buffer stays within the bound, append + trim is a plain append. -/
theorem appendTrim_of_lt (b : List Turn) (t : Turn)
    (h : b.length < MAX_HISTORY_LENGTH) :
    appendTrim b t = b ++ [t] := by
  have hlt : ¬ MAX_HISTORY_LENGTH < (b ++ [t]).length := by simp; omega
  simp only [appendTrim, trimBuffer]
  rw [if_neg hlt]

theorem appendAll_nil (b : List Turn) : appendAll b [] = b := rfl

theorem appendAll_cons (b : List Turn) (m : List Char) (ms : List (List Char)) :
    appendAll b (m :: ms) = appendAll (appendTrim b (userTurn m)) ms := rfl

/-- Folding user-turn appends (each trimmed) keeps exactly the last `H`
entries of the would-be untrimmed buffer. -/
theorem appendAll_eq_rtake (ms : List (List Char)) (b : List Turn) (h : ms ≠ []) :
    appendAll b ms = (b ++ ms.map userTurn).rtake MAX_HISTORY_LENGTH := by
  induction ms generalizing b with
  | nil => exact absurd rfl h
  | cons m ms ih =>
    rw [appendAll_cons]
    by_cases hms : ms = []
    · subst hms
      simp [appendAll_nil, appendTrim_eq_rtake]
    · rw [ih _ hms, appendTrim_eq_rtake, rtake_append_rtake]
      simp

/-- Within the bound, folding user-turn appends is a plain append of user turns. -/
theorem appendAll_of_le (ms : List (List Char)) (b : List Turn)
    (h : b.length + ms.length ≤ MAX_HISTORY_LENGTH) :
    appendAll b ms = b ++ ms.map userTurn := by
  induction ms generalizing b with
  | nil => simp [appendAll_nil]
  | cons m ms ih =>
    rw [appendAll_cons, appendTrim_of_lt b _ (by simp at h; omega), ih]
    · simp
    · simp at h ⊢; omega

theorem chunksFuel_nil (f : Nat) : chunksFuel f [] = [] := by
  cases f <;> rfl

theorem chunksFuel_cons (f : Nat) (s : List Char) (h : s ≠ []) :
    chunksFuel (f + 1) s = s.take 2000 :: chunksFuel f (s.drop 2000) := by
  cases s with
  | nil => exact absurd rfl h
  | cons c rest => rfl

/-- With enough fuel, concatenating the fixed-size slices restores the text. -/
theorem chunksFuel_flatten (f : Nat) :
    ∀ s : List Char, s.length ≤ f → (chunksFuel f s).flatten = s := by
  induction f with
  | zero =>
    intro s h
    have : s = [] := List.eq_nil_of_length_eq_zero (Nat.le_zero.mp h)
    subst this
    rfl
  | succ f ih =>
    intro s h
    cases s with
    | nil => rfl
    | cons c rest =>
      rw [chunksFuel_cons f _ (by simp)]
      have hd : ((c :: rest).drop 2000).length ≤ f := by simp at h ⊢; omega
      simp only [List.flatten_cons, ih _ hd, List.take_append_drop]

/-- Every fixed-size slice holds at most 2000 characters. -/
theorem chunksFuel_length_le (f : Nat) :
    ∀ s c, c ∈ chunksFuel f s → c.length ≤ 2000 := by
  induction f with
  | zero =>
    intro s c hc
    cases s <;> simp [chunksFuel] at hc
  | succ f ih =>
    intro s c hc
    cases s with
    | nil => simp [chunksFuel] at hc
    | cons x rest =>
      rw [chunksFuel_cons f _ (by simp)] at hc
      rcases List.mem_cons.mp hc with h | h
      · subst h
        simp
      · exact ih _ _ h

theorem chunks_ne_nil (s : List Char) (h : s ≠ []) : chunks s ≠ [] := by
  cases s with
  | nil => exact absurd rfl h
  | cons c rest =>
    rw [chunks, List.length_cons, chunksFuel_cons _ _ (by simp)]
    simp

/-- For an oversized response, the emitted contents are exactly the slices. -/
theorem emitFragments_snd (s : List Char) (h : ¬ s.length ≤ 2000) :
    (emitFragments s).map Prod.snd = chunks s := by
  have hne : chunks s ≠ [] := chunks_ne_nil s (by intro hs; subst hs; simp at h)
  rw [emitFragments, if_neg h]
  cases hc : chunks s with
  | nil => exact absurd hc hne
  | cons c cs =>
    simp [List.map_map, Function.comp_def]

/-! ### Claim theorems -/

/-- C1 (counterexample): with a full buffer (20 turns), appending the user
turn, trimming, and rolling back after a completion failure does NOT restore
the pre-append buffer: the entry the trim discarded is lost. -/
theorem c1_counterexample :
    (get_ai_response st20 7 (['h', 'i']) failComp).1 7 ≠ st20 7 := by
  decide

/-- C1 (amended): if the user's buffer holds fewer than `MAX_HISTORY_LENGTH`
turns before the append (so the trim is a no-op), a failed exchange restores
the entire state exactly and emits the fixed-format apology. -/
theorem c1_rollback_restores (st : State) (u : Nat) (msg err : List Char)
    (completion : List Turn → Except (List Char) (List Char))
    (hlen : (st u).length < MAX_HISTORY_LENGTH)
    (hfail : ∀ ms, completion ms = Except.error err) :
    (get_ai_response st u msg completion).1 = st ∧
    (get_ai_response st u msg completion).2 = apology err := by
  constructor
  · funext v
    by_cases hv : v = u
    · subst hv
      simp [get_ai_response, hfail, historyPop, historyTrim, historyAppend]
      rw [show trimBuffer (st v ++ [userTurn msg]) = appendTrim (st v) (userTurn msg) from rfl,
        appendTrim_of_lt _ _ hlen]
      simp
    · simp [get_ai_response, hfail, historyPop, historyTrim, historyAppend, hv]
  · simp [get_ai_response, hfail]

/-- C1 (witness): a concrete failed exchange from an empty buffer. -/
theorem c1_witness :
    (initialState 0).length < MAX_HISTORY_LENGTH ∧
    (get_ai_response initialState 0 (['h', 'i']) failComp).1 = initialState ∧
    (get_ai_response initialState 0 (['h', 'i']) failComp).2 = apology (['e']) :=
  ⟨by decide,
   (c1_rollback_restores initialState 0 (['h', 'i']) (['e']) failComp
     (by decide) (fun _ => rfl)).1,
   (c1_rollback_restores initialState 0 (['h', 'i']) (['e']) failComp
     (by decide) (fun _ => rfl)).2⟩

/-- Helper for the C3 counterexample: every `iterSuccess n` is reachable. -/
theorem reachable_iterSuccess (n : Nat) : Reachable (iterSuccess n) := by
  induction n with
  | zero => exact Reachable.empty
  | succ n ih => exact Reachable.success _ _ _ ih

/-- C3 (counterexample): after 11 successful exchanges the buffer is a
reachable state of length 21 > 20: the assistant-turn append performed after
a successful completion is not followed by a trim. -/
theorem c3_counterexample :
    Reachable (iterSuccess 11) ∧ MAX_HISTORY_LENGTH < (iterSuccess 11).length :=
  ⟨reachable_iterSuccess 11, by decide⟩

/-- C3 (amended): every reachable buffer has length at most
`MAX_HISTORY_LENGTH + 1`; the bound `MAX_HISTORY_LENGTH` itself holds after
each user-turn trim but the assistant append can exceed it by one. -/
theorem c3_length_le (b : List Turn) (h : Reachable b) :
    b.length ≤ MAX_HISTORY_LENGTH + 1 := by
  induction h with
  | empty => simp
  | success b msg ai _ _ =>
    have := appendTrim_length_le b (userTurn msg)
    simp [successExchange]
    omega
  | failure b msg _ _ =>
    have := appendTrim_length_le b (userTurn msg)
    simp [failedExchange]
    omega
  | reset b _ _ => simp

/-- C3 (witness): the empty buffer is reachable and within the bound. -/
theorem c3_witness :
    Reachable ([] : List Turn) ∧ ([] : List Turn).length ≤ MAX_HISTORY_LENGTH + 1 :=
  ⟨Reachable.empty, c3_length_le [] Reachable.empty⟩

/-- C4 (counterexample): `list.pop()` on an empty buffer raises IndexError
(modelled as `none`) rather than acting as a no-op that leaves the buffer
empty. -/
theorem c4_counterexample : rollbackLast [] = none := rfl

/-- C4 (amended): rollback on an empty buffer raises (returns `none`); on any
non-empty buffer it removes exactly the most recently appended turn — which
covers the program's only rollback site, where a user turn was just appended. -/
theorem c4_rollback_behavior :
    rollbackLast ([] : List Turn) = none ∧
    ∀ (b : List Turn) (t : Turn), rollbackLast (b ++ [t]) = some b := by
  refine ⟨rfl, ?_⟩
  intro b t
  cases b with
  | nil => rfl
  | cons x xs =>
    rw [List.cons_append,
      show rollbackLast (x :: (xs ++ [t])) = some ((x :: (xs ++ [t])).dropLast) from rfl,
      ← List.cons_append, List.dropLast_concat]

/-- C2 (code evaluation at the failing input): for the plain mention
encoding the derived user message still contains the mention, because line
161 recomputes from the original `message.content` and thereby discards line
160's plain-token removal; only the nickname encoding is actually removed. -/
theorem c2_mention_not_stripped :
    route 123 eventPlainMention = Action.respond (("<@123> explain recursion").toList) ∧
    route 123 eventNickMention = Action.respond (("explain recursion").toList) := by
  constructor <;> decide

/-- Helper for C5: the slice sizes of a 4500-character text. -/
theorem chunks_map_length_4500 (s : List Char) (h : s.length = 4500) :
    (chunks s).map List.length = [2000, 2000, 500] := by
  have h1 : s ≠ [] := by intro hs; subst hs; simp at h
  have e0 : (4500 : Nat) = 4499 + 1 := by norm_num
  rw [chunks, h, e0, chunksFuel_cons _ _ h1]
  have hd1 : (s.drop 2000).length = 2500 := by simp [h]
  have h2 : s.drop 2000 ≠ [] := by intro hs; rw [hs] at hd1; simp at hd1
  have e1 : (4499 : Nat) = 4498 + 1 := by norm_num
  rw [e1, chunksFuel_cons _ _ h2]
  have hd2 : ((s.drop 2000).drop 2000).length = 500 := by simp [h]
  have h3 : (s.drop 2000).drop 2000 ≠ [] := by intro hs; rw [hs] at hd2; simp at hd2
  have e2 : (4498 : Nat) = 4497 + 1 := by norm_num
  rw [e2, chunksFuel_cons _ _ h3]
  have hd3 : ((s.drop 2000).drop 2000).drop 2000 = [] := by
    apply List.eq_nil_of_length_eq_zero
    simp [h]
  rw [hd3, chunksFuel_nil]
  simp [List.length_take, h, hd1, hd2]

/-- C5: every oversized response is emitted as consecutive slices of at most
2000 characters, the first as a threaded reply and all later ones as plain
follow-ups in order; a 4500-character response gives sizes [2000, 2000, 500]. -/
theorem c5_fragmentation (s : List Char) (h : 2000 < s.length) :
    (∀ f ∈ emitFragments s, (Prod.snd f).length ≤ 2000) ∧
    (emitFragments s).map Prod.snd = chunks s ∧
    (emitFragments s).map Prod.fst =
      SendMode.reply :: List.replicate ((emitFragments s).length - 1) SendMode.followup ∧
    (s.length = 4500 →
      (emitFragments s).map (fun f => (Prod.snd f).length) = [2000, 2000, 500]) := by
  have hnot : ¬ s.length ≤ 2000 := by omega
  have hsnd := emitFragments_snd s hnot
  refine ⟨?_, hsnd, ?_, ?_⟩
  · intro f hf
    have hmem : Prod.snd f ∈ (emitFragments s).map Prod.snd := List.mem_map_of_mem _ hf
    rw [hsnd, chunks] at hmem
    exact chunksFuel_length_le _ _ _ hmem
  · have hne : chunks s ≠ [] := chunks_ne_nil s (by intro hs; subst hs; simp at h)
    rw [emitFragments, if_neg hnot]
    cases hc : chunks s with
    | nil => exact absurd hc hne
    | cons c cs => simp [List.map_map, Function.comp_def]
  · intro h45
    have hc : (emitFragments s).map (fun f => (Prod.snd f).length) =
        ((emitFragments s).map Prod.snd).map List.length := by
      simp [List.map_map, Function.comp_def]
    rw [hc, hsnd, chunks_map_length_4500 s h45]

/-- C5 (witness): the fragmentation of a concrete 4500-character response. -/
theorem c5_witness :
    2000 < s4500.length ∧
    (emitFragments s4500).map (fun f => (Prod.snd f).length) = [2000, 2000, 500] := by
  have hl : s4500.length = 4500 := by rw [s4500, List.length_replicate]
  exact ⟨by rw [hl]; norm_num,
    (c5_fragmentation s4500 (by rw [hl]; norm_num)).2.2.2 hl⟩

/-- C6: after more than `MAX_HISTORY_LENGTH` user-turn appends (each followed
by the trim), from any starting buffer, the buffer has length exactly
`MAX_HISTORY_LENGTH` and holds precisely the most recent appends in order. -/
theorem c6_stabilizes (b : List Turn) (ms : List (List Char))
    (h : MAX_HISTORY_LENGTH < ms.length) :
    (appendAll b ms).length = MAX_HISTORY_LENGTH ∧
    appendAll b ms = (ms.drop (ms.length - MAX_HISTORY_LENGTH)).map userTurn := by
  have hne : ms ≠ [] := by intro hs; subst hs; simp at h
  have hlen : MAX_HISTORY_LENGTH ≤ (ms.map userTurn).length := by simp; omega
  have he : appendAll b ms = (ms.map userTurn).rtake MAX_HISTORY_LENGTH := by
    rw [appendAll_eq_rtake ms b hne, rtake_append_of_le _ _ hlen]
  constructor
  · rw [he, length_rtake_of_le _ hlen]
  · rw [he, List.rtake]
    simp

/-- C6 (witness): 21 appends of the same one-character message. -/
theorem c6_witness :
    MAX_HISTORY_LENGTH < (List.replicate 21 (['h'])).length ∧
    (appendAll [] (List.replicate 21 (['h']))).length = MAX_HISTORY_LENGTH ∧
    appendAll [] (List.replicate 21 (['h'])) =
      ((List.replicate 21 (['h'])).drop
        ((List.replicate 21 (['h'])).length - MAX_HISTORY_LENGTH)).map userTurn :=
  ⟨by decide, (c6_stabilizes [] _ (by decide)).1, (c6_stabilizes [] _ (by decide)).2⟩

/-- C7: any non-bot event whose text starts with `!` takes the command path
and stops there: the outcome is exactly the command handler's (independent of
the completion client, with no history append and no AI reply), the routing
decision is `command`, and an unrecognized command produces no output and no
state change at all. -/
theorem c7_command_path (botId : Nat) (m : Msg) (st : State)
    (completion : List Turn → Except (List Char) (List Char))
    (h1 : m.authorIsBot = false) (h2 : startsWithBang m.content = true) :
    on_message botId m st completion =
      ((process_commands st m.authorId m.content).1,
        (process_commands st m.authorId m.content).2.map (fun t => (SendMode.reply, t))) ∧
    route botId m = Action.command ∧
    (commandName m.content ≠ ("reset").toList → commandName m.content ≠ ("help").toList →
      on_message botId m st completion = (st, [])) := by
  refine ⟨?_, ?_, ?_⟩
  · simp [on_message, h1, h2]
  · simp [route, h1, h2]
  · intro hr hh
    have hr' : commandName m.content ≠ ['r', 'e', 's', 'e', 't'] := by simpa using hr
    have hh' : commandName m.content ≠ ['h', 'e', 'l', 'p'] := by simpa using hh
    simp [on_message, h1, h2, process_commands, hr', hh']

/-- C7 (witness): an unrecognized command, `!frobnicate now`, yields no
output and leaves the state untouched. -/
theorem c7_witness :
    eventUnknownCommand.authorIsBot = false ∧
    startsWithBang eventUnknownCommand.content = true ∧
    on_message 99 eventUnknownCommand initialState okComp = (initialState, []) :=
  ⟨rfl, rfl,
    (c7_command_path 99 eventUnknownCommand initialState okComp rfl rfl).2.2
      (by decide) (by decide)⟩

/-- C8: for any system prompt, after at most `MAX_HISTORY_LENGTH` user-turn
appends (each trimmed) starting from an empty buffer, the rendered prompt
context is exactly the system turn followed by the appended turns in order. -/
theorem c8_render (sys : List Char) (ms : List (List Char))
    (h : ms.length ≤ MAX_HISTORY_LENGTH) :
    render (appendAll [] ms) sys = Turn.mk Role.system sys :: ms.map userTurn := by
  rw [render, appendAll_of_le ms [] (by simpa using h)]
  simp

/-- C8 (witness): one append, then render. -/
theorem c8_witness :
    ([(['h', 'i'])] : List (List Char)).length ≤ MAX_HISTORY_LENGTH ∧
    render (appendAll [] [(['h', 'i'])]) (['p']) =
      Turn.mk Role.system (['p']) :: ([(['h', 'i'])] : List (List Char)).map userTurn :=
  ⟨by decide, c8_render (['p']) [(['h', 'i'])] (by decide)⟩

/-- C9: concatenating the emitted fragments, in emission order, always
reconstructs the original response text exactly. -/
theorem c9_flatten (s : List Char) :
    ((emitFragments s).map Prod.snd).flatten = s := by
  by_cases h : s.length ≤ 2000
  · simp [emitFragments, h]
  · rw [emitFragments_snd s h, chunks, chunksFuel_flatten s.length s (Nat.le_refl _)]

/-- C10: every History Store operation keyed to user `u` — append, trim,
rollback pop, reset, and the whole of get_ai_response (success or failure) —
leaves the buffer of any other user `v` unchanged. -/
theorem c10_frame (st : State) (u v : Nat) (t : Turn) (msg : List Char)
    (completion : List Turn → Except (List Char) (List Char)) (h : v ≠ u) :
    historyAppend st u t v = st v ∧
    historyTrim st u v = st v ∧
    historyPop st u v = st v ∧
    reset_conversation st u v = st v ∧
    (get_ai_response st u msg completion).1 v = st v := by
  refine ⟨by simp [historyAppend, h], by simp [historyTrim, h], by simp [historyPop, h],
    by simp [reset_conversation, h], ?_⟩
  unfold get_ai_response
  dsimp only
  split <;> simp [historyAppend, historyTrim, historyPop, h]

/-- C10 (witness): user 0 acts, user 1's buffer is untouched. -/
theorem c10_witness :
    (1 : Nat) ≠ 0 ∧
    historyAppend initialState 0 (userTurn (['x'])) 1 = initialState 1 ∧
    historyTrim initialState 0 1 = initialState 1 ∧
    historyPop initialState 0 1 = initialState 1 ∧
    reset_conversation initialState 0 1 = initialState 1 ∧
    (get_ai_response initialState 0 (['m']) okComp).1 1 = initialState 1 := by
  have h := c10_frame initialState 0 1 (userTurn (['x'])) (['m']) okComp (by decide)
  exact ⟨by decide, h.1, h.2.1, h.2.2.1, h.2.2.2.1, h.2.2.2.2⟩

end ConvBot
